import Mathlib

set_option autoImplicit false

namespace GeoMap

/-!
Shallow embedding of the GeoMap picture-extractor pipeline
(src/plugins/picture_extractor.py) and proofs about its configuration,
staging, extraction and frame-sampling operations.
-/

/-! ### Filesystem and configuration model
(config_default_locations, picture_extractor.py lines 28-78) -/

/-- A filesystem entry: a directory holding a list of entry names, or a plain file. -/
inductive FsEntry where
  | dir (contents : List String)
  | file
  deriving DecidableEq, Repr

/-- A filesystem maps an (absolute, resolved) path to its entry, when one exists. -/
def Fs : Type := String → Option FsEntry

/-- os.makedirs / file creation: update the entry at one path. -/
def Fs.update (fs : Fs) (p : String) (e : FsEntry) : Fs :=
  fun q => if q = p then some e else fs q

/-- os.path.exists -/
def Fs.pathExists (fs : Fs) (p : String) : Bool :=
  (fs p).isSome

/-- os.path.isdir -/
def Fs.isdir (fs : Fs) (p : String) : Bool :=
  match fs p with
  | some (FsEntry.dir _) => true
  | _ => false

/-- os.listdir, as used by config after an isdir check (empty on non-directories). -/
def Fs.listdir (fs : Fs) (p : String) : List String :=
  match fs p with
  | some (FsEntry.dir c) => c
  | _ => []

/-- The in-memory session state ctx obj, keys working/source/dest of ctx PES. -/
structure Ctx where
  working : Option String
  source : Option String
  dest : Option String
  deriving DecidableEq, Repr

/-- The messages click.echo prints during config, each carrying the specific
path it names (the reason is the constructor itself). -/
inductive Msg where
  | creatingWorkingDir (p : String)
  | settingWorkingDir (p : String)
  | workingNotEmpty (p : String)
  | unknownWorkingIssue (p : String)
  | sourceDoesNotExist (p : String)
  | sourceEmpty (p : String)
  | settingSourceDir (p : String)
  | unknownSourceIssue (p : String)
  | creatingDestDir (p : String)
  | settingDestDir (p : String)
  | unknownDestIssue (p : String)
  deriving DecidableEq, Repr

/-- The working-directory block of config_default_locations (lines 43-55). -/
def config_working (working : Option String) (fs : Fs) (ctx : Ctx) :
    Fs × Ctx × List Msg :=
  match working with
  | none => (fs, ctx, [])
  | some w =>
    if !(fs.pathExists w) then
      (fs.update w (FsEntry.dir []), { ctx with working := some w },
       [Msg.creatingWorkingDir w])
    else if fs.isdir w && (fs.listdir w).isEmpty then
      (fs, { ctx with working := some w }, [Msg.settingWorkingDir w])
    else if fs.isdir w then
      (fs, ctx, [Msg.workingNotEmpty w])
    else
      (fs, ctx, [Msg.unknownWorkingIssue w])

/-- The source-directory block of config_default_locations (lines 56-66). -/
def config_source (source : Option String) (fs : Fs) (ctx : Ctx) :
    Fs × Ctx × List Msg :=
  match source with
  | none => (fs, ctx, [])
  | some s =>
    if !(fs.pathExists s) then
      (fs, ctx, [Msg.sourceDoesNotExist s])
    else if fs.isdir s && (fs.listdir s).isEmpty then
      (fs, ctx, [Msg.sourceEmpty s])
    else if fs.isdir s then
      (fs, { ctx with source := some s }, [Msg.settingSourceDir s])
    else
      (fs, ctx, [Msg.unknownSourceIssue s])

/-- The destination-directory block of config_default_locations (lines 67-77). -/
def config_dest (dest : Option String) (fs : Fs) (ctx : Ctx) :
    Fs × Ctx × List Msg :=
  match dest with
  | none => (fs, ctx, [])
  | some d =>
    if !(fs.pathExists d) then
      (fs.update d (FsEntry.dir []), { ctx with dest := some d },
       [Msg.creatingDestDir d])
    else if fs.isdir d then
      (fs, { ctx with dest := some d }, [Msg.settingDestDir d])
    else
      (fs, ctx, [Msg.unknownDestIssue d])

/-- config_default_locations (lines 28-78): processes the working option,
then the source option, then the dest option of one invocation, in the
order the function body runs them. -/
def config_default_locations (working source dest : Option String)
    (fs : Fs) (ctx : Ctx) : Fs × Ctx × List Msg :=
  let r1 := config_working working fs ctx
  let r2 := config_source source r1.1 r1.2.1
  let r3 := config_dest dest r2.1 r2.2.1
  (r3.1, r3.2.1, r1.2.2 ++ r2.2.2 ++ r3.2.2)

/-! Helper lemmas: the source and dest blocks never touch the working field. -/

theorem config_source_preserves_working (source : Option String) (fs : Fs)
    (ctx : Ctx) : ((config_source source fs ctx).2.1).working = ctx.working := by
  cases source with
  | none => rfl
  | some s =>
    simp only [config_source]
    split
    · rfl
    · split
      · rfl
      · split <;> rfl

theorem config_dest_preserves_working (dest : Option String) (fs : Fs)
    (ctx : Ctx) : ((config_dest dest fs ctx).2.1).working = ctx.working := by
  cases dest with
  | none => rfl
  | some d =>
    simp only [config_dest]
    split
    · rfl
    · split <;> rfl

theorem config_working_on_nonempty (fs : Fs) (ctx : Ctx) (w x : String)
    (xs : List String) (h : fs w = some (FsEntry.dir (x :: xs))) :
    config_working (some w) fs ctx = (fs, ctx, [Msg.workingNotEmpty w]) := by
  simp [config_working, Fs.pathExists, Fs.isdir, Fs.listdir, h]

/-- An empty session context: no working, source or dest path set. -/
def ctx0 : Ctx := ⟨none, none, none⟩

/-- C5: setting the working directory is a three-way case split: a missing
path is created and accepted; an existing empty directory is accepted; an
existing non-empty directory is rejected with the not-empty message, the
working path stays as it was, and the filesystem is not touched. -/
theorem set_working_three_cases (fs : Fs) (ctx : Ctx) (p : String) :
    (fs p = none →
      config_working (some p) fs ctx =
        (fs.update p (FsEntry.dir []), { ctx with working := some p },
         [Msg.creatingWorkingDir p])) ∧
    (fs p = some (FsEntry.dir []) →
      config_working (some p) fs ctx =
        (fs, { ctx with working := some p }, [Msg.settingWorkingDir p])) ∧
    (∀ x xs, fs p = some (FsEntry.dir (x :: xs)) →
      config_working (some p) fs ctx = (fs, ctx, [Msg.workingNotEmpty p])) := by
  refine ⟨fun h => ?_, fun h => ?_, fun x xs h => config_working_on_nonempty fs ctx p x xs h⟩
  · simp [config_working, Fs.pathExists, h]
  · simp [config_working, Fs.pathExists, Fs.isdir, Fs.listdir, h]

/-- A filesystem whose path p is a directory holding one file. -/
def fsC5 : Fs := fun q => if q = "p" then some (FsEntry.dir ["f"]) else none

/-- Witness for set_working_three_cases: on a directory containing one file,
the call is rejected, the context is unchanged and the filesystem untouched. -/
theorem set_working_three_cases_witness :
    fsC5 "p" = some (FsEntry.dir ["f"]) ∧
    config_working (some "p") fsC5 ctx0 = (fsC5, ctx0, [Msg.workingNotEmpty "p"]) :=
  ⟨by decide, (set_working_three_cases fsC5 ctx0 "p").2.2 "f" [] (by decide)⟩

/-- A filesystem where the requested working directory is non-empty and the
requested source directory is a valid non-empty directory. -/
def fsC3 : Fs := fun q =>
  if q = "w" then some (FsEntry.dir ["x"])
  else if q = "s" then some (FsEntry.dir ["y"]) else none

/-- C3 counterexample: an invocation whose working option hits the not-empty
configuration error still processes the remaining source option and sets it,
so the operation did not abort after reporting the error. -/
theorem config_continues_after_error_cex :
    Msg.workingNotEmpty "w" ∈
      (config_default_locations (some "w") (some "s") none fsC3 ctx0).2.2 ∧
    ((config_default_locations (some "w") (some "s") none fsC3 ctx0).2.1).source
      = some "s" ∧
    ((config_default_locations (some "w") (some "s") none fsC3 ctx0).2.1).working
      = none := by decide

/-! The error branch of each block reports the specific path and reason and
leaves the filesystem and context untouched. -/

theorem config_working_on_file (fs : Fs) (ctx : Ctx) (w : String)
    (h : fs w = some FsEntry.file) :
    config_working (some w) fs ctx = (fs, ctx, [Msg.unknownWorkingIssue w]) := by
  simp [config_working, Fs.pathExists, Fs.isdir, Fs.listdir, h]

theorem config_source_on_missing (fs : Fs) (ctx : Ctx) (s : String)
    (h : fs s = none) :
    config_source (some s) fs ctx = (fs, ctx, [Msg.sourceDoesNotExist s]) := by
  simp [config_source, Fs.pathExists, h]

theorem config_source_on_empty (fs : Fs) (ctx : Ctx) (s : String)
    (h : fs s = some (FsEntry.dir [])) :
    config_source (some s) fs ctx = (fs, ctx, [Msg.sourceEmpty s]) := by
  simp [config_source, Fs.pathExists, Fs.isdir, Fs.listdir, h]

theorem config_source_on_file (fs : Fs) (ctx : Ctx) (s : String)
    (h : fs s = some FsEntry.file) :
    config_source (some s) fs ctx = (fs, ctx, [Msg.unknownSourceIssue s]) := by
  simp [config_source, Fs.pathExists, Fs.isdir, Fs.listdir, h]

theorem config_dest_on_file (fs : Fs) (ctx : Ctx) (d : String)
    (h : fs d = some FsEntry.file) :
    config_dest (some d) fs ctx = (fs, ctx, [Msg.unknownDestIssue d]) := by
  simp [config_dest, Fs.pathExists, Fs.isdir, h]

/-! Each block touches only its own context field. -/

theorem config_working_preserves_source (working : Option String) (fs : Fs)
    (ctx : Ctx) : ((config_working working fs ctx).2.1).source = ctx.source := by
  cases working with
  | none => rfl
  | some w =>
    simp only [config_working]
    split
    · rfl
    · split
      · rfl
      · split <;> rfl

theorem config_working_preserves_dest (working : Option String) (fs : Fs)
    (ctx : Ctx) : ((config_working working fs ctx).2.1).dest = ctx.dest := by
  cases working with
  | none => rfl
  | some w =>
    simp only [config_working]
    split
    · rfl
    · split
      · rfl
      · split <;> rfl

theorem config_source_preserves_dest (source : Option String) (fs : Fs)
    (ctx : Ctx) : ((config_source source fs ctx).2.1).dest = ctx.dest := by
  cases source with
  | none => rfl
  | some s =>
    simp only [config_source]
    split
    · rfl
    · split
      · rfl
      · split <;> rfl

theorem config_dest_preserves_source (dest : Option String) (fs : Fs)
    (ctx : Ctx) : ((config_dest dest fs ctx).2.1).source = ctx.source := by
  cases dest with
  | none => rfl
  | some d =>
    simp only [config_dest]
    split
    · rfl
    · split <;> rfl

/-! A block that errors is an identity on the filesystem and context, so the
whole invocation runs on as if the failing option had not been given, the
error message inserted at the failing block's position. -/

theorem config_run_working_err (fs : Fs) (ctx : Ctx) (w : String)
    (source dest : Option String) (m : Msg)
    (hw : config_working (some w) fs ctx = (fs, ctx, [m])) :
    config_default_locations (some w) source dest fs ctx =
      ((config_default_locations none source dest fs ctx).1,
       (config_default_locations none source dest fs ctx).2.1,
       m :: (config_default_locations none source dest fs ctx).2.2) ∧
    ((config_default_locations (some w) source dest fs ctx).2.1).working
      = ctx.working := by
  have hnone : ∀ (fs2 : Fs) (c : Ctx), config_working none fs2 c = (fs2, c, []) :=
    fun _ _ => rfl
  constructor
  · simp [config_default_locations, hw, hnone]
  · simp [config_default_locations, hw, hnone, config_dest_preserves_working,
      config_source_preserves_working]

theorem config_run_source_err (fs : Fs) (ctx : Ctx) (working : Option String)
    (s : String) (dest : Option String) (m : Msg)
    (hs : config_source (some s) (config_working working fs ctx).1
            (config_working working fs ctx).2.1 =
          ((config_working working fs ctx).1,
           (config_working working fs ctx).2.1, [m])) :
    config_default_locations working (some s) dest fs ctx =
      ((config_default_locations working none dest fs ctx).1,
       (config_default_locations working none dest fs ctx).2.1,
       (config_working working fs ctx).2.2 ++ m ::
         (config_dest dest (config_working working fs ctx).1
           (config_working working fs ctx).2.1).2.2) ∧
    ((config_default_locations working (some s) dest fs ctx).2.1).source
      = ctx.source := by
  have hsnone : ∀ (fs2 : Fs) (c : Ctx), config_source none fs2 c = (fs2, c, []) :=
    fun _ _ => rfl
  constructor
  · simp [config_default_locations, hs, hsnone]
  · simp [config_default_locations, hs, hsnone, config_dest_preserves_source,
      config_working_preserves_source]

theorem config_run_dest_err (fs : Fs) (ctx : Ctx) (working source : Option String)
    (d : String) (m : Msg)
    (hd : config_dest (some d)
            (config_source source (config_working working fs ctx).1
              (config_working working fs ctx).2.1).1
            (config_source source (config_working working fs ctx).1
              (config_working working fs ctx).2.1).2.1 =
          ((config_source source (config_working working fs ctx).1
              (config_working working fs ctx).2.1).1,
           (config_source source (config_working working fs ctx).1
              (config_working working fs ctx).2.1).2.1, [m])) :
    config_default_locations working source (some d) fs ctx =
      ((config_default_locations working source none fs ctx).1,
       (config_default_locations working source none fs ctx).2.1,
       (config_default_locations working source none fs ctx).2.2 ++ [m]) ∧
    ((config_default_locations working source (some d) fs ctx).2.1).dest
      = ctx.dest := by
  have hdnone : ∀ (fs2 : Fs) (c : Ctx), config_dest none fs2 c = (fs2, c, []) :=
    fun _ _ => rfl
  constructor
  · simp [config_default_locations, hd, hdnone]
  · simp [config_default_locations, hd, hdnone, config_source_preserves_dest,
      config_working_preserves_dest]

/-- C3 amended: whenever a configuration error occurs in any block of one
invocation — the working path an existing non-empty directory or an
existing non-directory, the source path missing, an existing empty
directory or an existing non-directory, or the dest path an existing
non-directory — the error is reported with the specific path and specific
reason, only the failing assignment is skipped, and the invocation
continues to process the remaining configuration inputs exactly as if the
failing option had not been given. The source and dest conditions are
stated on the filesystem as it stands when their block runs. -/
theorem config_error_reports_and_continues (fs : Fs) (ctx : Ctx) :
    (∀ (w : String) (source dest : Option String) (x : String) (xs : List String),
      fs w = some (FsEntry.dir (x :: xs)) →
      config_default_locations (some w) source dest fs ctx =
        ((config_default_locations none source dest fs ctx).1,
         (config_default_locations none source dest fs ctx).2.1,
         Msg.workingNotEmpty w ::
           (config_default_locations none source dest fs ctx).2.2) ∧
      ((config_default_locations (some w) source dest fs ctx).2.1).working
        = ctx.working) ∧
    (∀ (w : String) (source dest : Option String),
      fs w = some FsEntry.file →
      config_default_locations (some w) source dest fs ctx =
        ((config_default_locations none source dest fs ctx).1,
         (config_default_locations none source dest fs ctx).2.1,
         Msg.unknownWorkingIssue w ::
           (config_default_locations none source dest fs ctx).2.2) ∧
      ((config_default_locations (some w) source dest fs ctx).2.1).working
        = ctx.working) ∧
    (∀ (working : Option String) (s : String) (dest : Option String),
      (config_working working fs ctx).1 s = none →
      config_default_locations working (some s) dest fs ctx =
        ((config_default_locations working none dest fs ctx).1,
         (config_default_locations working none dest fs ctx).2.1,
         (config_working working fs ctx).2.2 ++ Msg.sourceDoesNotExist s ::
           (config_dest dest (config_working working fs ctx).1
             (config_working working fs ctx).2.1).2.2) ∧
      ((config_default_locations working (some s) dest fs ctx).2.1).source
        = ctx.source) ∧
    (∀ (working : Option String) (s : String) (dest : Option String),
      (config_working working fs ctx).1 s = some (FsEntry.dir []) →
      config_default_locations working (some s) dest fs ctx =
        ((config_default_locations working none dest fs ctx).1,
         (config_default_locations working none dest fs ctx).2.1,
         (config_working working fs ctx).2.2 ++ Msg.sourceEmpty s ::
           (config_dest dest (config_working working fs ctx).1
             (config_working working fs ctx).2.1).2.2) ∧
      ((config_default_locations working (some s) dest fs ctx).2.1).source
        = ctx.source) ∧
    (∀ (working : Option String) (s : String) (dest : Option String),
      (config_working working fs ctx).1 s = some FsEntry.file →
      config_default_locations working (some s) dest fs ctx =
        ((config_default_locations working none dest fs ctx).1,
         (config_default_locations working none dest fs ctx).2.1,
         (config_working working fs ctx).2.2 ++ Msg.unknownSourceIssue s ::
           (config_dest dest (config_working working fs ctx).1
             (config_working working fs ctx).2.1).2.2) ∧
      ((config_default_locations working (some s) dest fs ctx).2.1).source
        = ctx.source) ∧
    (∀ (working source : Option String) (d : String),
      (config_source source (config_working working fs ctx).1
        (config_working working fs ctx).2.1).1 d = some FsEntry.file →
      config_default_locations working source (some d) fs ctx =
        ((config_default_locations working source none fs ctx).1,
         (config_default_locations working source none fs ctx).2.1,
         (config_default_locations working source none fs ctx).2.2 ++
           [Msg.unknownDestIssue d]) ∧
      ((config_default_locations working source (some d) fs ctx).2.1).dest
        = ctx.dest) := by
  refine ⟨?_, ?_, ?_, ?_, ?_, ?_⟩
  · intro w source dest x xs h
    exact config_run_working_err fs ctx w source dest _
      (config_working_on_nonempty fs ctx w x xs h)
  · intro w source dest h
    exact config_run_working_err fs ctx w source dest _
      (config_working_on_file fs ctx w h)
  · intro working s dest h
    exact config_run_source_err fs ctx working s dest _
      (config_source_on_missing _ _ s h)
  · intro working s dest h
    exact config_run_source_err fs ctx working s dest _
      (config_source_on_empty _ _ s h)
  · intro working s dest h
    exact config_run_source_err fs ctx working s dest _
      (config_source_on_file _ _ s h)
  · intro working source d h
    exact config_run_dest_err fs ctx working source d _
      (config_dest_on_file _ _ d h)

/-- Witness for config_error_reports_and_continues at a concrete state: the
working option hits the not-empty error and the invocation still processes
and sets the source option. -/
theorem config_error_reports_and_continues_witness :
    fsC3 "w" = some (FsEntry.dir ["x"]) ∧
    (config_default_locations (some "w") (some "s") none fsC3 ctx0 =
       ((config_default_locations none (some "s") none fsC3 ctx0).1,
        (config_default_locations none (some "s") none fsC3 ctx0).2.1,
        Msg.workingNotEmpty "w" ::
          (config_default_locations none (some "s") none fsC3 ctx0).2.2) ∧
     ((config_default_locations (some "w") (some "s") none fsC3 ctx0).2.1).working
       = ctx0.working) :=
  ⟨by decide,
   (config_error_reports_and_continues fsC3 ctx0).1 "w" (some "s") none "x" []
     (by decide)⟩

/-! ### Directory-change behaviour of setup
(picture_extractor.py lines 106-110, 157-158, 169-187) -/

/-- The process state visible to os.getcwd / os.chdir. -/
structure Proc where
  cwd : String
  deriving DecidableEq, Repr

/-- Outcome of one shutil.move / shutil.copy call: it either succeeds or
raises an OSError. -/
inductive Transfer where
  | ok
  | err
  deriving DecidableEq, Repr

/-- The transfer loops of setup (lines 173-184): run the transfers in order;
the first raising transfer propagates out of the loop. The process cwd is
unchanged by a transfer. Returns whether an exception was raised. -/
def run_transfers (p : Proc) : List Transfer → Proc × Bool
  | [] => (p, false)
  | Transfer.ok :: ts => run_transfers p ts
  | Transfer.err :: _ => (p, true)

/-- The directory-change skeleton of setup (lines 106-187):
curdir := os.getcwd(); os.chdir(source); prompts and selection;
os.chdir(working); the move/copy loops; os.chdir(curdir). There is no
try/finally, so an exception raised by a transfer leaves the function
before the final chdir. Returns the final process state and whether the
invocation raised. -/
def setup_cwd (p : Proc) (source working : String) (transfers : List Transfer) :
    Proc × Bool :=
  let curdir := p.cwd
  let p1 : Proc := { p with cwd := source }
  let p2 : Proc := { p1 with cwd := working }
  match run_transfers p2 transfers with
  | (p3, true) => (p3, true)
  | (p3, false) => ({ p3 with cwd := curdir }, false)

/-- C2 counterexample: a setup invocation from cwd home whose single transfer
raises terminates with the process left in the working directory, not the
original one, so the original working directory is not restored on this
failure path. -/
theorem setup_cwd_not_restored_on_failure :
    (setup_cwd ⟨"home"⟩ "src" "work" [Transfer.err]).1.cwd = "work" ∧
    (setup_cwd ⟨"home"⟩ "src" "work" [Transfer.err]).2 = true ∧
    (setup_cwd ⟨"home"⟩ "src" "work" [Transfer.err]).1.cwd ≠ "home" := by decide

theorem run_transfers_state (p : Proc) (ts : List Transfer) :
    run_transfers p ts = (p, !ts.all (· = Transfer.ok)) := by
  induction ts with
  | nil => rfl
  | cons t ts ih =>
    cases t with
    | ok => simpa [run_transfers] using ih
    | err => simp [run_transfers]

/-- C2 amended: setup restores the original working directory of the process
on the success path; on a failure path (a raising transfer) it leaves the
process in the staging working directory and the exception propagates. -/
theorem setup_cwd_restore_behavior (p : Proc) (source working : String)
    (ts : List Transfer) :
    (ts.all (· = Transfer.ok) = true →
      setup_cwd p source working ts = (⟨p.cwd⟩, false)) ∧
    (ts.all (· = Transfer.ok) = false →
      setup_cwd p source working ts = (⟨working⟩, true)) := by
  constructor <;> intro h <;> simp [setup_cwd, run_transfers_state, h]

/-- Witness for setup_cwd_restore_behavior on both a succeeding and a failing
run. -/
theorem setup_cwd_restore_behavior_witness :
    ([Transfer.ok].all (· = Transfer.ok) = true ∧
      setup_cwd ⟨"home"⟩ "src" "work" [Transfer.ok] = (⟨"home"⟩, false)) ∧
    ([Transfer.err].all (· = Transfer.ok) = false ∧
      setup_cwd ⟨"home"⟩ "src" "work" [Transfer.err] = (⟨"work"⟩, true)) :=
  ⟨⟨by decide,
    (setup_cwd_restore_behavior ⟨"home"⟩ "src" "work" [Transfer.ok]).1 (by decide)⟩,
   ⟨by decide,
    (setup_cwd_restore_behavior ⟨"home"⟩ "src" "work" [Transfer.err]).2 (by decide)⟩⟩

/-! ### The media classifier
(picture_extractor.py lines 114-115: the istype lambda over filetype.guess) -/

/-- The media kind reported by the external filetype library probe: the MIME
family of the detected content signature. -/
inductive MimeKind where
  | image
  | video
  | other
  deriving DecidableEq, Repr

/-- The read failure the probe can raise: filetype.guess(path) opens the
file and reads its leading bytes with no exception handling, so a file that
cannot be opened makes the OSError of open() propagate out of the probe. -/
inductive ReadErr where
  | ioError
  deriving DecidableEq, Repr

/-- istype (lines 114-115): k := filetype.guess(join(source, f)) and
k.mime.startswith(t). The probe's outcome on one candidate path is either
the raised read error (a file that cannot be opened), or the detected type,
or none when no known signature matches the readable content. The lambda
adds no handler, so a read error raised by the probe propagates out of
istype; a probe returning None makes the conjunction falsy; otherwise the
detected MIME family is compared with the requested one. -/
def istype (guess : String → Except ReadErr (Option MimeKind)) (f : String)
    (t : MimeKind) : Except ReadErr Bool :=
  match guess f with
  | Except.error e => Except.error e
  | Except.ok none => Except.ok false
  | Except.ok (some k) => Except.ok (decide (k = t))

/-- A probe for which the candidate file cannot be opened: open() raises. -/
def guessUnreadable : String → Except ReadErr (Option MimeKind) := fun _ =>
  Except.error ReadErr.ioError

/-- A probe that reads the candidate file but matches no known signature. -/
def guessNothing : String → Except ReadErr (Option MimeKind) := fun _ =>
  Except.ok none

/-- C9 counterexample: on a candidate file that cannot be read, the
classifier does not return the neither result: the probe's read error
propagates out of istype for both families, so the classifier raises
instead of classifying. -/
theorem istype_unreadable_raises_cex :
    istype guessUnreadable "f" MimeKind.image = Except.error ReadErr.ioError ∧
    istype guessUnreadable "f" MimeKind.video = Except.error ReadErr.ioError ∧
    istype guessUnreadable "f" MimeKind.image ≠ Except.ok false ∧
    istype guessUnreadable "f" MimeKind.video ≠ Except.ok false := by
  refine ⟨rfl, rfl, ?_, ?_⟩ <;> simp [istype, guessUnreadable]

/-- C9 amended: a candidate file the probe reads but matches no known
signature classifies as neither an image nor a video, without raising; a
candidate file that cannot be read does not classify as neither: the read
error raised inside the probe propagates out of the classifier unchanged. -/
theorem istype_unrecognized_neither
    (guess : String → Except ReadErr (Option MimeKind)) (f : String) :
    (guess f = Except.ok none →
      istype guess f MimeKind.image = Except.ok false ∧
      istype guess f MimeKind.video = Except.ok false) ∧
    (∀ e, guess f = Except.error e →
      istype guess f MimeKind.image = Except.error e ∧
      istype guess f MimeKind.video = Except.error e) := by
  constructor
  · intro h
    constructor <;> simp [istype, h]
  · intro e h
    constructor <;> simp [istype, h]

/-- Witness for istype_unrecognized_neither at both concrete probes: the
unrecognized file is neither, the unreadable file propagates the error. -/
theorem istype_unrecognized_neither_witness :
    (guessNothing "f" = Except.ok none ∧
      (istype guessNothing "f" MimeKind.image = Except.ok false ∧
       istype guessNothing "f" MimeKind.video = Except.ok false)) ∧
    (guessUnreadable "f" = Except.error ReadErr.ioError ∧
      (istype guessUnreadable "f" MimeKind.image = Except.error ReadErr.ioError ∧
       istype guessUnreadable "f" MimeKind.video = Except.error ReadErr.ioError)) :=
  ⟨⟨rfl, (istype_unrecognized_neither guessNothing "f").1 rfl⟩,
   ⟨rfl, (istype_unrecognized_neither guessUnreadable "f").2 ReadErr.ioError rfl⟩⟩

/-! ### The video-selection loop of setup
(picture_extractor.py lines 143-155) -/

/-- The while loop of setup selecting ext_vid videos (lines 143-155). The
answers list is the stream of paths the caller types at the prompt,
consumed left to right. A candidate that re-validates as a video is
appended and the counter advances; otherwise only a message is printed and
the loop asks again. If the stream runs out while the loop still needs
answers, the run is blocked at a prompt: none. -/
def select_videos_loop (isVid : String → Bool) (ext_vid : Nat)
    (sel_videos : List String) : List String → Option (List String)
  | [] => if ext_vid ≤ sel_videos.length then some sel_videos else none
  | vid :: rest =>
    if ext_vid ≤ sel_videos.length then some sel_videos
    else if isVid vid then select_videos_loop isVid ext_vid (sel_videos ++ [vid]) rest
    else select_videos_loop isVid ext_vid sel_videos rest

/-- The selection loop as entered by setup: no videos collected yet. -/
def select_videos (isVid : String → Bool) (ext_vid : Nat)
    (answers : List String) : Option (List String) :=
  select_videos_loop isVid ext_vid [] answers

theorem select_videos_loop_complete (isVid : String → Bool) (k : Nat) :
    ∀ (answers : List String) (sel : List String), sel.length ≤ k →
      (∀ v ∈ sel, isVid v = true) →
      ∀ out, select_videos_loop isVid k sel answers = some out →
        out.length = k ∧ ∀ v ∈ out, isVid v = true := by
  intro answers
  induction answers with
  | nil =>
    intro sel hlen hval out hout
    simp only [select_videos_loop] at hout
    split at hout
    · rename_i hk
      cases hout
      exact ⟨Nat.le_antisymm hlen hk, hval⟩
    · cases hout
  | cons a rest ih =>
    intro sel hlen hval out hout
    simp only [select_videos_loop] at hout
    split at hout
    · rename_i hk
      cases hout
      exact ⟨Nat.le_antisymm hlen hk, hval⟩
    · rename_i hk
      have hlt : sel.length < k := Nat.lt_of_le_of_ne hlen (fun he => hk (by omega))
      split at hout
      · rename_i hv
        refine ih (sel ++ [a]) ?_ ?_ out hout
        · simpa using hlt
        · intro v hv2
          rcases List.mem_append.mp hv2 with h1 | h1
          · exact hval v h1
          · simp only [List.mem_singleton] at h1
            subst h1
            exact hv
      · exact ih sel hlen hval out hout

/-- C6: in the video-selection loop, a candidate failing re-validation as a
video consumes no slot and only causes a re-prompt (the run continues with
the same collected list), and a run of the loop that completes has
collected exactly ext_vid validated videos. -/
theorem select_videos_retry_and_count (isVid : String → Bool) (ext_vid : Nat) :
    (∀ (sel : List String) (vid : String) (rest : List String),
      sel.length < ext_vid → isVid vid = false →
      select_videos_loop isVid ext_vid sel (vid :: rest) =
        select_videos_loop isVid ext_vid sel rest) ∧
    (∀ (answers out : List String),
      select_videos isVid ext_vid answers = some out →
      out.length = ext_vid ∧ ∀ v ∈ out, isVid v = true) := by
  constructor
  · intro sel vid rest hlt hv
    have hk : ¬ ext_vid ≤ sel.length := by omega
    simp [select_videos_loop, hk, hv]
  · intro answers out hout
    exact select_videos_loop_complete isVid ext_vid answers [] (Nat.zero_le _)
      (by intro v hv; cases hv) out hout

/-- Witness for select_videos_retry_and_count: with one slot requested, the
rejected candidate x is retried away and the run completes with exactly the
single validated video v. -/
theorem select_videos_retry_and_count_witness :
    ((0 : Nat) < 1 ∧ (fun s => s = "v" : String → Bool) "x" = false ∧
      select_videos_loop (fun s => s = "v") 1 [] (["x", "v"]) =
        select_videos_loop (fun s => s = "v") 1 [] (["v"])) ∧
    (select_videos (fun s => s = "v") 1 (["x", "v"]) = some ["v"] ∧
      ["v"].length = 1 ∧ ∀ v ∈ (["v"] : List String), (fun s => s = "v" : String → Bool) v = true) :=
  ⟨⟨by decide, by decide,
    (select_videos_retry_and_count (fun s => s = "v") 1).1 [] "x" ["v"]
      (by decide) (by decide)⟩,
   ⟨by decide,
    (select_videos_retry_and_count (fun s => s = "v") 1).2 (["x", "v"]) ["v"]
      (by decide)⟩⟩

/-! ### FrameSampler: extract_video
(picture_extractor.py lines 189-210) -/

/-- The filename written for output frame j: the Python format spec 05 pads
the decimal digits of j with zeros on the left to a minimum width of five,
then the fixed jpg extension is appended. -/
def frameName (j : Nat) : String :=
  String.mk (List.replicate (5 - (toString j).length) '0') ++ toString j ++ ".jpg"

/-- The while loop of extract_video (lines 196-206). The video decoder is
modelled by the list of decoded frames in decode order: v.read yields the
next frame until the stream ends. The loop carries frame_index (frames
written so far) and frame_count (frames read so far) and writes a frame
exactly when frame_count % n == 0. Returns the writes (filename, frame) in
order. -/
def extract_video_loop (n : Nat) : List Nat → Nat → Nat → List (String × Nat)
  | [], _, _ => []
  | f :: fs, frame_index, frame_count =>
    if frame_count % n = 0 then
      (frameName frame_index, f) ::
        extract_video_loop n fs (frame_index + 1) (frame_count + 1)
    else
      extract_video_loop n fs frame_index (frame_count + 1)

/-- extract_video (lines 189-210): both counters start at zero. -/
def extract_video (frames : List Nat) (n : Nat) : List (String × Nat) :=
  extract_video_loop n frames 0 0

theorem extract_video_loop_mod (n : Nat) :
    ∀ (fs : List Nat) (fi fc fc' : Nat), fc % n = fc' % n →
      extract_video_loop n fs fi fc = extract_video_loop n fs fi fc' := by
  intro fs
  induction fs with
  | nil => intro fi fc fc' _; rfl
  | cons f fs ih =>
    intro fi fc fc' h
    have h1 : (fc + 1) % n = (fc' + 1) % n := by
      conv_lhs => rw [Nat.add_mod]
      conv_rhs => rw [Nat.add_mod]
      rw [h]
    by_cases h0 : fc' % n = 0
    · have h0' : fc % n = 0 := by rw [h]; exact h0
      simp only [extract_video_loop, if_pos h0, if_pos h0']
      rw [ih _ _ _ h1]
    · have h0' : ¬ fc % n = 0 := by rw [h]; exact h0
      simp only [extract_video_loop, if_neg h0, if_neg h0']
      exact ih _ _ _ h1

theorem extract_video_loop_skip (n : Nat) :
    ∀ (k : Nat) (fs : List Nat) (fi fc : Nat),
      (∀ i, i < k → (fc + i) % n ≠ 0) →
      extract_video_loop n fs fi fc = extract_video_loop n (fs.drop k) fi (fc + k) := by
  intro k
  induction k with
  | zero => intro fs fi fc _; simp
  | succ k ih =>
    intro fs fi fc h
    cases fs with
    | nil => simp [extract_video_loop]
    | cons f fs =>
      have h0 : ¬ fc % n = 0 := by
        have := h 0 (Nat.succ_pos k)
        simpa using this
      simp only [extract_video_loop, if_neg h0]
      have h2 : ∀ i, i < k → (fc + 1 + i) % n ≠ 0 := by
        intro i hi
        have := h (i + 1) (by omega)
        have e : fc + (i + 1) = fc + 1 + i := by omega
        rwa [e] at this
      rw [ih fs fi (fc + 1) h2]
      have e1 : (f :: fs).drop (k + 1) = fs.drop k := rfl
      have e2 : fc + (k + 1) = fc + 1 + k := by omega
      rw [e1, e2]

theorem extract_video_loop_step (n : Nat) (hn : 1 ≤ n) (f : Nat) (fs : List Nat)
    (fi fc : Nat) (h0 : fc % n = 0) :
    extract_video_loop n (f :: fs) fi fc =
      (frameName fi, f) :: extract_video_loop n ((f :: fs).drop n) (fi + 1) 0 := by
  simp only [extract_video_loop, if_pos h0]
  congr 1
  have hskip : ∀ i, i < n - 1 → (fc + 1 + i) % n ≠ 0 := by
    intro i hi
    have e : fc + 1 + i = fc + (1 + i) := by omega
    have hsmall : (1 + i) % n = 1 + i := Nat.mod_eq_of_lt (by omega)
    rw [e, Nat.add_mod, h0, Nat.zero_add, hsmall, hsmall]
    omega
  rw [extract_video_loop_skip n (n - 1) fs (fi + 1) (fc + 1) hskip]
  have hd : fs.drop (n - 1) = (f :: fs).drop n := by
    cases n with
    | zero => omega
    | succ m => simp
  rw [hd]
  apply extract_video_loop_mod
  have e : fc + 1 + (n - 1) = fc + n := by omega
  rw [e, Nat.add_mod_right, h0, Nat.zero_mod]

theorem ceil_div_succ (n L : Nat) (hn : 1 ≤ n) (hL : 1 ≤ L) :
    (L + n - 1) / n = (L - n + n - 1) / n + 1 := by
  rcases Nat.le_total n L with h | h
  · have e : L + n - 1 = (L - n + n - 1) + n := by omega
    rw [e, Nat.add_div_right _ (by omega)]
  · have e0 : L - n = 0 := by omega
    have e2 : L + n - 1 = (L - 1) + n := by omega
    rw [e0, e2, Nat.add_div_right _ (by omega)]
    have e3 : (L - 1) / n = 0 := Nat.div_eq_of_lt (by omega)
    have e4 : (0 + n - 1) / n = 0 := Nat.div_eq_of_lt (by omega)
    rw [e3, e4]

theorem extract_video_loop_char (n : Nat) (hn : 1 ≤ n) :
    ∀ (L : Nat) (fs : List Nat), fs.length = L → ∀ (fi : Nat),
      extract_video_loop n fs fi 0 =
        (List.range ((fs.length + n - 1) / n)).map
          (fun j => (frameName (fi + j), fs.getD (j * n) 0)) := by
  intro L
  induction L using Nat.strong_induction_on with
  | _ L IH =>
    intro fs hL fi
    cases fs with
    | nil =>
      have e : (List.length ([] : List Nat) + n - 1) / n = 0 :=
        Nat.div_eq_of_lt (by simp; omega)
      rw [e]
      rfl
    | cons f fs =>
      rw [extract_video_loop_step n hn f fs fi 0 (Nat.zero_mod n)]
      have hdec : ((f :: fs).drop n).length < L := by
        simp only [List.length_drop, List.length_cons]
        simp only [List.length_cons] at hL
        omega
      rw [IH (((f :: fs).drop n).length) hdec ((f :: fs).drop n) rfl (fi + 1)]
      have hlen : ((f :: fs).drop n).length = (f :: fs).length - n := by
        simp [List.length_drop]
      have hc : ((f :: fs).length + n - 1) / n =
          (((f :: fs).drop n).length + n - 1) / n + 1 := by
        rw [hlen]
        exact ceil_div_succ n (f :: fs).length hn (by simp)
      rw [hc, List.range_succ_eq_map, List.map_cons, List.map_map]
      congr 1
      · simp
      · apply List.map_congr_left
        intro j _
        simp only [Function.comp_apply, Nat.succ_eq_add_one]
        have e0 : fi + 1 + j = fi + (j + 1) := by omega
        have e1 : ((f :: fs).drop n).getD (j * n) 0 = (f :: fs).getD (n + j * n) 0 := by
          simp [List.getD_eq_getElem?_getD, List.getElem?_drop]
        have e2 : (j + 1) * n = n + j * n := by ring
        rw [e0, e1, e2]

/-- C4: for a video of F decodable frames and stride n of at least one,
extract_video writes exactly (F + n - 1) / n files, the j-th write carrying
the zero-padded name of sequence number j starting at zero (so names are
gap-free and increasing) and holding decoded frame number j * n, each of
which is a real frame of the video. -/
theorem extract_video_stride_correct (frames : List Nat) (n : Nat) (hn : 1 ≤ n) :
    extract_video frames n =
      (List.range ((frames.length + n - 1) / n)).map
        (fun j => (frameName j, frames.getD (j * n) 0)) ∧
    (extract_video frames n).length = (frames.length + n - 1) / n ∧
    ∀ j, j < (frames.length + n - 1) / n → j * n < frames.length := by
  have hchar := extract_video_loop_char n hn frames.length frames rfl 0
  simp only [Nat.zero_add] at hchar
  refine ⟨hchar, ?_, ?_⟩
  · rw [extract_video, hchar]
    simp
  · intro j hj
    have hL1 : 1 ≤ frames.length := by
      by_contra hcon
      have h0 : frames.length = 0 := by omega
      rw [h0] at hj
      have : (0 + n - 1) / n = 0 := Nat.div_eq_of_lt (by omega)
      omega
    have h2 : (j + 1) * n ≤ frames.length + n - 1 :=
      (Nat.le_div_iff_mul_le (by omega)).mp (by omega)
    have h3 : j * n + n ≤ frames.length + n - 1 := by
      rw [← Nat.succ_mul]
      exact h2
    omega

/-- Witness for extract_video_stride_correct: five frames at stride two give
three files, frames zero, two and four. -/
theorem extract_video_stride_correct_witness :
    1 ≤ 2 ∧
    (extract_video [10, 20, 30, 40, 50] 2 =
      (List.range (([10, 20, 30, 40, 50].length + 2 - 1) / 2)).map
        (fun j => (frameName j, [10, 20, 30, 40, 50].getD (j * 2) 0)) ∧
     (extract_video [10, 20, 30, 40, 50] 2).length =
       ([10, 20, 30, 40, 50].length + 2 - 1) / 2 ∧
     ∀ j, j < ([10, 20, 30, 40, 50].length + 2 - 1) / 2 →
       j * 2 < [10, 20, 30, 40, 50].length) :=
  ⟨by decide, extract_video_stride_correct [10, 20, 30, 40, 50] 2 (by decide)⟩

/-! ### StagingPlanner materialization
(picture_extractor.py lines 160-184) -/

/-- A staged input unit name under working/input: the flat images directory,
or the numbered directory video i. -/
inductive InputUnit where
  | images
  | video (i : Nat)
  deriving DecidableEq, Repr

/-- The part of the working directory setup materializes into: the unit
directories under input/ with their files (none when the directory does not
exist), and whether output/ exists. -/
structure Workspace where
  units : InputUnit → Option (List String)
  output : Bool

/-- os.makedirs(working/input/(unit), exist_ok=True): create the unit
directory when missing, keep it and its contents otherwise. -/
def mkUnitDir (ws : Workspace) (u : InputUnit) : Workspace :=
  { ws with units := fun v => if v = u then some ((ws.units u).getD []) else ws.units v }

/-- One shutil.move / shutil.copy of file f into the unit directory u. -/
def transferInto (ws : Workspace) (u : InputUnit) (f : String) : Workspace :=
  { ws with units := fun v =>
      if v = u then some (((ws.units u).getD []) ++ [f]) else ws.units v }

/-- Lines 160-184 of setup: make input/images iff any images were selected,
make input/video i for i below the selected-video count, make output
unconditionally, then transfer every selected image into input/images and
every selected video vid into input/video i for (i, vid) in
enumerate(sel_videos). -/
def setup_materialize (ws : Workspace) (sel_images sel_videos : List String) :
    Workspace :=
  let ws1 := if sel_images.isEmpty then ws else mkUnitDir ws InputUnit.images
  let ws2 := (List.range sel_videos.length).foldl
    (fun w i => mkUnitDir w (InputUnit.video i)) ws1
  let ws3 : Workspace := { ws2 with output := true }
  let ws4 := sel_images.foldl (fun w img => transferInto w InputUnit.images img) ws3
  sel_videos.enum.foldl (fun w p => transferInto w (InputUnit.video p.1) p.2) ws4

theorem foldl_output_invariant {α : Type} (f : Workspace → α → Workspace)
    (hf : ∀ w a, (f w a).output = w.output) :
    ∀ (l : List α) (ws : Workspace), (l.foldl f ws).output = ws.output := by
  intro l
  induction l with
  | nil => intro ws; rfl
  | cons a l ih => intro ws; rw [List.foldl_cons, ih, hf]

theorem foldl_units_invariant {α : Type} (u : InputUnit) (f : Workspace → α → Workspace)
    (hf : ∀ w a, (f w a).units u = w.units u) :
    ∀ (l : List α) (ws : Workspace), (l.foldl f ws).units u = ws.units u := by
  intro l
  induction l with
  | nil => intro ws; rfl
  | cons a l ih => intro ws; rw [List.foldl_cons, ih, hf]

theorem mkUnitDir_units_self (ws : Workspace) (u : InputUnit) :
    (mkUnitDir ws u).units u = some ((ws.units u).getD []) := by
  simp [mkUnitDir]

theorem mkUnitDir_units_other (ws : Workspace) (u v : InputUnit) (h : v ≠ u) :
    (mkUnitDir ws u).units v = ws.units v := by
  simp [mkUnitDir, h]

theorem transferInto_units_self (ws : Workspace) (u : InputUnit) (f : String) :
    (transferInto ws u f).units u = some ((ws.units u).getD [] ++ [f]) := by
  simp [transferInto]

theorem transferInto_units_other (ws : Workspace) (u : InputUnit) (f : String)
    (v : InputUnit) (h : v ≠ u) : (transferInto ws u f).units v = ws.units v := by
  simp [transferInto, h]

theorem mk_fold_video (k : Nat) :
    ∀ (ws : Workspace) (i : Nat),
      (((List.range k).foldl (fun w i => mkUnitDir w (InputUnit.video i)) ws)).units
          (InputUnit.video i) =
        if i < k then some ((ws.units (InputUnit.video i)).getD [])
        else ws.units (InputUnit.video i) := by
  induction k with
  | zero => intro ws i; simp
  | succ k ih =>
    intro ws i
    rw [List.range_succ, List.foldl_append, List.foldl_cons, List.foldl_nil]
    by_cases hik : i = k
    · subst hik
      rw [mkUnitDir_units_self, ih, if_neg (Nat.lt_irrefl i), if_pos (Nat.lt_succ_self i)]
    · have hne : InputUnit.video i ≠ InputUnit.video k := by
        intro h; cases h; exact hik rfl
      rw [mkUnitDir_units_other _ _ _ hne, ih]
      by_cases hlt : i < k
      · rw [if_pos hlt, if_pos (by omega)]
      · rw [if_neg hlt, if_neg (by omega)]

theorem img_fold_images :
    ∀ (imgs : List String) (ws : Workspace),
      ((imgs.foldl (fun w img => transferInto w InputUnit.images img) ws)).units
          InputUnit.images =
        if imgs.isEmpty then ws.units InputUnit.images
        else some ((ws.units InputUnit.images).getD [] ++ imgs) := by
  intro imgs
  induction imgs with
  | nil => intro ws; simp
  | cons img imgs ih =>
    intro ws
    rw [List.foldl_cons, ih]
    by_cases he : imgs = []
    · subst he
      simp [transferInto_units_self]
    · have he2 : imgs.isEmpty = false := by simp [he]
      simp [he2, transferInto_units_self]

theorem enum_fold_video :
    ∀ (vs : List String) (off : Nat) (ws : Workspace) (i : Nat),
      (((List.enumFrom off vs).foldl
          (fun w p => transferInto w (InputUnit.video p.1) p.2) ws)).units
          (InputUnit.video i) =
        if off ≤ i ∧ i < off + vs.length then
          some ((ws.units (InputUnit.video i)).getD [] ++ [vs.getD (i - off) ""])
        else ws.units (InputUnit.video i) := by
  intro vs
  induction vs with
  | nil =>
    intro off ws i
    rw [if_neg (fun h => by
      rcases h with ⟨h1, h2⟩
      simp only [List.length_nil, Nat.add_zero] at h2
      omega)]
    rfl
  | cons v vs ih =>
    intro off ws i
    have hstep : List.enumFrom off (v :: vs) = (off, v) :: List.enumFrom (off + 1) vs := rfl
    rw [hstep, List.foldl_cons, ih]
    by_cases hio : i = off
    · subst hio
      rw [if_neg (fun h => by omega),
        if_pos (⟨Nat.le_refl i, by simp only [List.length_cons]; omega⟩ :
          i ≤ i ∧ i < i + (v :: vs).length)]
      rw [transferInto_units_self, Nat.sub_self]
      rfl
    · have hne : InputUnit.video i ≠ InputUnit.video off := by
        intro h; cases h; exact hio rfl
      by_cases hin : off + 1 ≤ i ∧ i < off + 1 + vs.length
      · rw [if_pos hin, if_pos (by
          refine ⟨by omega, ?_⟩
          simp only [List.length_cons]
          omega)]
        have hgd : (v :: vs).getD (i - off) "" = vs.getD (i - (off + 1)) "" := by
          have e : i - off = (i - (off + 1)) + 1 := by omega
          rw [e]
          rfl
        rw [hgd, transferInto_units_other _ _ _ _ hne]
      · rw [if_neg hin, if_neg (fun h => by
          rcases h with ⟨h1, h2⟩
          simp only [List.length_cons] at h2
          omega)]
        exact transferInto_units_other _ _ _ _ hne

/-- The fresh working directory as validated by config: no staged unit
directories, no output directory. -/
def freshWs : Workspace := ⟨fun _ => none, false⟩

theorem Workspace.units_mk (f : InputUnit → Option (List String)) (b : Bool) :
    (Workspace.mk f b).units = f := rfl

/-- C7: materializing a staging selection in a fresh working directory yields
exactly: input/video i holding exactly the one selected video of selection
index i, for every i below the selected count, and no other video unit;
input/images present iff at least one image was selected, holding exactly
the selected images; and output present unconditionally, selection or not. -/
theorem setup_materialize_layout (sel_images sel_videos : List String) :
    ((setup_materialize freshWs sel_images sel_videos).units InputUnit.images =
        if sel_images.isEmpty then none else some sel_images) ∧
    (∀ i, i < sel_videos.length →
      (setup_materialize freshWs sel_images sel_videos).units (InputUnit.video i) =
        some [sel_videos.getD i ""]) ∧
    (∀ i, sel_videos.length ≤ i →
      (setup_materialize freshWs sel_images sel_videos).units (InputUnit.video i) =
        none) ∧
    (setup_materialize freshWs sel_images sel_videos).output = true := by
  have hws : setup_materialize freshWs sel_images sel_videos =
      (List.enumFrom 0 sel_videos).foldl
        (fun w p => transferInto w (InputUnit.video p.1) p.2)
        (sel_images.foldl (fun w img => transferInto w InputUnit.images img)
          { units := ((List.range sel_videos.length).foldl
              (fun w i => mkUnitDir w (InputUnit.video i))
              (if sel_images.isEmpty then freshWs
               else mkUnitDir freshWs InputUnit.images)).units,
            output := true }) := rfl
  have himg_enum : ∀ (ws : Workspace),
      (((List.enumFrom 0 sel_videos).foldl
        (fun w p => transferInto w (InputUnit.video p.1) p.2) ws)).units
        InputUnit.images = ws.units InputUnit.images := by
    intro ws
    refine foldl_units_invariant InputUnit.images _ ?_ _ ws
    intro w a
    simp [transferInto]
  have hvid_img : ∀ (ws : Workspace) (i : Nat),
      ((sel_images.foldl (fun w img => transferInto w InputUnit.images img) ws)).units
        (InputUnit.video i) = ws.units (InputUnit.video i) := by
    intro ws i
    refine foldl_units_invariant (InputUnit.video i) _ ?_ _ ws
    intro w a
    simp [transferInto]
  have hws1_img : (if sel_images.isEmpty then freshWs
      else mkUnitDir freshWs InputUnit.images).units InputUnit.images =
      if sel_images.isEmpty then none else some [] := by
    by_cases he : sel_images.isEmpty
    · rw [if_pos he, if_pos he]; rfl
    · rw [if_neg he, if_neg he, mkUnitDir_units_self]; rfl
  have hws1_vid : ∀ i, (if sel_images.isEmpty then freshWs
      else mkUnitDir freshWs InputUnit.images).units (InputUnit.video i) = none := by
    intro i
    by_cases he : sel_images.isEmpty
    · rw [if_pos he]; rfl
    · rw [if_neg he, mkUnitDir_units_other _ _ _ (by intro h; cases h)]; rfl
  have hmk_img : ∀ (ws : Workspace),
      (((List.range sel_videos.length).foldl
        (fun w i => mkUnitDir w (InputUnit.video i)) ws)).units InputUnit.images =
        ws.units InputUnit.images := by
    intro ws
    refine foldl_units_invariant InputUnit.images _ ?_ _ ws
    intro w a
    exact mkUnitDir_units_other _ _ _ (by intro h; cases h)
  refine ⟨?_, ?_, ?_, ?_⟩
  · rw [hws, himg_enum, img_fold_images, Workspace.units_mk, hmk_img, hws1_img]
    by_cases he : sel_images.isEmpty
    · simp [he]
    · simp [he]
  · intro i hi
    rw [hws, enum_fold_video, if_pos (by constructor <;> omega), hvid_img,
      Workspace.units_mk, mk_fold_video, if_pos hi, hws1_vid]
    simp
  · intro i hi
    rw [hws, enum_fold_video, if_neg (by intro h; omega), hvid_img,
      Workspace.units_mk, mk_fold_video, if_neg (by omega), hws1_vid]
  · rw [hws,
      foldl_output_invariant
        (fun (w : Workspace) (p : Nat × String) =>
          transferInto w (InputUnit.video p.1) p.2)
        (fun w a => rfl),
      foldl_output_invariant
        (fun (w : Workspace) (img : String) => transferInto w InputUnit.images img)
        (fun w a => rfl)]

/-- Witness for setup_materialize_layout: one selected image and two selected
videos give video0 and video1 each holding its one video in selection
order, the images unit holding the image, and the output directory. -/
theorem setup_materialize_layout_witness :
    (0 : Nat) < 2 ∧ (2 : Nat) ≤ 5 ∧
    ((setup_materialize freshWs ["a"] ["v1", "v2"]).units InputUnit.images =
        if (["a"] : List String).isEmpty then none else some ["a"]) ∧
    (setup_materialize freshWs ["a"] ["v1", "v2"]).units (InputUnit.video 0) =
      some [(["v1", "v2"] : List String).getD 0 ""] ∧
    (setup_materialize freshWs ["a"] ["v1", "v2"]).units (InputUnit.video 5) = none ∧
    (setup_materialize freshWs ["a"] ["v1", "v2"]).output = true :=
  ⟨by decide, by decide,
   (setup_materialize_layout ["a"] ["v1", "v2"]).1,
   (setup_materialize_layout ["a"] ["v1", "v2"]).2.1 0 (by decide),
   (setup_materialize_layout ["a"] ["v1", "v2"]).2.2.1 5 (by decide),
   (setup_materialize_layout ["a"] ["v1", "v2"]).2.2.2⟩

/-! ### SetExtractor: the extract command
(picture_extractor.py lines 212-278) -/

/-- The usage errors extract can raise before its loop, by message. -/
inductive UsageErr where
  | noWorkingDir
  | notConfigured
  | noInputMaterial
  deriving DecidableEq, Repr

/-- How the precondition phase of extract can halt: a click usage error, or
an uncaught FileNotFoundError from os.listdir on a missing directory. -/
inductive ExtractHalt where
  | usage (e : UsageErr)
  | listdirRaised
  deriving DecidableEq, Repr

/-- The state of the working directory as extract observes it: whether the
entries input and output appear in os.listdir(working), and the unit
directories under working/input when that directory exists. -/
structure WorkingDir where
  hasInput : Bool
  hasOutput : Bool
  inputEntries : List InputUnit
  deriving DecidableEq, Repr

/-- Lines 222-246 of extract: the checks run before the loop, through the
computation of max_sets. The guard raising the usage error that names the
setup step fires only when input and output are both missing from the
working directory; afterwards os.listdir(working/input) runs
unconditionally and raises when working/input is absent, and nothing
catches that. Returns max_sets when no halt occurs. -/
def extract_precheck (working : Option String) (w : WorkingDir) :
    Except ExtractHalt Nat :=
  match working with
  | none => Except.error (ExtractHalt.usage UsageErr.noWorkingDir)
  | some _ =>
    if !w.hasInput && !w.hasOutput then
      Except.error (ExtractHalt.usage UsageErr.notConfigured)
    else
      match (if w.hasInput then Except.ok w.inputEntries
             else Except.error ExtractHalt.listdirRaised :
             Except ExtractHalt (List InputUnit)) with
      | Except.error e => Except.error e
      | Except.ok entries =>
        let videos := (entries.filter fun d =>
          match d with
          | InputUnit.video _ => true
          | InputUnit.images => false).length
        let images := if InputUnit.images ∈ entries then 1 else 0
        let max_sets := videos + images
        if max_sets = 0 then
          Except.error (ExtractHalt.usage UsageErr.noInputMaterial)
        else Except.ok max_sets

/-- C1 (code bug): with working set and working/output present but
working/input absent, extract does not raise the usage error that names the
skipped setup step: the guard requires input and output to both be absent,
so the run goes on to os.listdir(working/input), which raises an uncaught
filesystem error. Only when input and output are both absent is the
documented usage error raised. -/
theorem extract_missing_input_uncaught :
    extract_precheck (some "w") ⟨false, true, []⟩ =
      Except.error ExtractHalt.listdirRaised ∧
    (∀ e : UsageErr, extract_precheck (some "w") ⟨false, true, []⟩ ≠
      Except.error (ExtractHalt.usage e)) ∧
    extract_precheck (some "w") ⟨false, false, []⟩ =
      Except.error (ExtractHalt.usage UsageErr.notConfigured) := by
  refine ⟨rfl, ?_, rfl⟩
  intro e h
  simp [extract_precheck] at h

/-- The result of the extraction loop (lines 257-278): normal completion
carrying the produced output sets, the fatal no-files error raised mid-run
carrying the output area at that moment together with the failing iteration
index and chosen unit, or a run blocked at a prompt because the stream of
answers ran out. Each produced set is recorded as (set index, consumed
unit, files written into output/set index). -/
inductive ExtractOutcome where
  | done (sets : List (Nat × InputUnit × List String))
  | noFilesErr (sets : List (Nat × InputUnit × List String)) (i : Nat) (u : InputUnit)
  | blocked
  deriving DecidableEq, Repr

/-- The for loop of extract (lines 257-278). files gives the contents of
each unit directory under input/; frameOut v is the list of filenames the
frame sampler writes into the set directory for the video file v; the first
list is the stream of answers typed at the choice prompt, consumed left to
right (click.Choice rejects a name outside available and re-prompts,
consuming the answer without any other effect); then the available set, the
iteration index i, the remaining iteration count, and the sets produced so
far. Each accepted choice is removed from available, output/set i is
created, and then the unit is copied (images) or sampled (video, raising
the fatal no-files error when the video directory is empty, after the set
directory was already created). -/
def extract_loop (files : InputUnit → List String) (frameOut : String → List String) :
    List InputUnit → List InputUnit → Nat → Nat →
    List (Nat × InputUnit × List String) → ExtractOutcome
  | _, _, _, 0, sets => ExtractOutcome.done sets
  | [], _, _, _ + 1, _ => ExtractOutcome.blocked
  | a :: rest, avail, i, r + 1, sets =>
    if a ∈ avail then
      match a with
      | InputUnit.images =>
        extract_loop files frameOut rest (avail.erase InputUnit.images) (i + 1) r
          (sets ++ [(i, InputUnit.images, files InputUnit.images)])
      | InputUnit.video j =>
        match files (InputUnit.video j) with
        | [] => ExtractOutcome.noFilesErr
            (sets ++ [(i, InputUnit.video j, [])]) i (InputUnit.video j)
        | v :: _ =>
          extract_loop files frameOut rest (avail.erase (InputUnit.video j)) (i + 1) r
            (sets ++ [(i, InputUnit.video j, frameOut v)])
    else
      extract_loop files frameOut rest avail i (r + 1) sets

/-- One run of the extraction loop as extract enters it: available is the
set of unit directories under input/, the iteration index starts at zero,
no sets produced yet. -/
def extract_run (files : InputUnit → List String) (frameOut : String → List String)
    (entries : List InputUnit) (set_count : Nat) (answers : List InputUnit) :
    ExtractOutcome :=
  extract_loop files frameOut answers entries 0 set_count []

theorem trace_extend (avail : List InputUnit) (b : Nat)
    (sets : List (Nat × InputUnit × List String)) (un : InputUnit) (c : List String)
    (h1 : avail.Nodup) (ha : un ∈ avail)
    (h2 : ∀ s ∈ sets, s.2.1 ∉ avail)
    (h3 : (sets.map (fun s => s.2.1)).Nodup)
    (h4 : sets.map Prod.fst = List.range' b sets.length) :
    (avail.erase un).Nodup ∧
    (∀ s ∈ sets ++ [(b + sets.length, un, c)], s.2.1 ∉ avail.erase un) ∧
    ((sets ++ [(b + sets.length, un, c)]).map (fun s => s.2.1)).Nodup ∧
    (sets ++ [(b + sets.length, un, c)]).map Prod.fst =
      List.range' b (sets ++ [(b + sets.length, un, c)]).length := by
  refine ⟨h1.erase un, ?_, ?_, ?_⟩
  · intro s hs
    rcases List.mem_append.mp hs with hs | hs
    · intro hmem
      exact h2 s hs (List.mem_of_mem_erase hmem)
    · simp only [List.mem_singleton] at hs
      subst hs
      exact h1.not_mem_erase
  · rw [List.map_append]
    refine h3.append (List.nodup_singleton _) ?_
    intro x hx hx2
    simp only [List.map_cons, List.map_nil, List.mem_singleton] at hx2
    subst hx2
    rcases List.mem_map.mp hx with ⟨s, hs, hseq⟩
    exact h2 s hs (hseq ▸ ha)
  · rw [List.map_append, h4, List.length_append]
    simp only [List.map_cons, List.map_nil, List.length_cons, List.length_nil]
    rw [List.range'_concat]
    simp

theorem extract_loop_trace (files : InputUnit → List String)
    (frameOut : String → List String) (b : Nat) :
    ∀ (answers avail : List InputUnit) (r : Nat)
      (sets : List (Nat × InputUnit × List String)) (i : Nat),
      i = b + sets.length →
      avail.Nodup →
      (∀ s ∈ sets, s.2.1 ∉ avail) →
      (sets.map (fun s => s.2.1)).Nodup →
      sets.map Prod.fst = List.range' b sets.length →
      (∀ out, extract_loop files frameOut answers avail i r sets =
          ExtractOutcome.done out →
        (out.map (fun s => s.2.1)).Nodup ∧
        out.map Prod.fst = List.range' b out.length) ∧
      (∀ out j u, extract_loop files frameOut answers avail i r sets =
          ExtractOutcome.noFilesErr out j u →
        ((out.map (fun s => s.2.1)).Nodup ∧
         out.map Prod.fst = List.range' b out.length) ∧
        out.getLast? = some (j, u, []) ∧ files u = [] ∧ ∃ m, u = InputUnit.video m) := by
  intro answers
  induction answers with
  | nil =>
    intro avail r sets i hI h1 h2 h3 h4
    constructor
    · intro out hout
      cases r with
      | zero =>
        have he : ExtractOutcome.done sets = ExtractOutcome.done out := hout
        cases he
        exact ⟨h3, h4⟩
      | succ r => exact absurd hout (by simp [extract_loop])
    · intro out j u hout
      cases r with
      | zero => exact absurd hout (by simp [extract_loop])
      | succ r => exact absurd hout (by simp [extract_loop])
  | cons a rest ih =>
    intro avail r sets i hI h1 h2 h3 h4
    cases r with
    | zero =>
      constructor
      · intro out hout
        have he : ExtractOutcome.done sets = ExtractOutcome.done out := hout
        cases he
        exact ⟨h3, h4⟩
      · intro out j u hout
        exact absurd hout (by simp [extract_loop])
    | succ r =>
      by_cases ha : a ∈ avail
      · subst hI
        cases a with
        | images =>
          have hstep : extract_loop files frameOut (InputUnit.images :: rest) avail
              (b + sets.length) (r + 1) sets =
              extract_loop files frameOut rest (avail.erase InputUnit.images)
                (b + sets.length + 1) r
                (sets ++ [(b + sets.length, InputUnit.images,
                  files InputUnit.images)]) := by
            simp [extract_loop, ha]
          obtain ⟨g1, g2, g3, g4⟩ :=
            trace_extend avail b sets InputUnit.images (files InputUnit.images)
              h1 ha h2 h3 h4
          have ihres := ih (avail.erase InputUnit.images) r
            (sets ++ [(b + sets.length, InputUnit.images, files InputUnit.images)])
            (b + sets.length + 1)
            (by simp only [List.length_append, List.length_cons, List.length_nil]; omega) g1 g2 g3 g4
          constructor
          · intro out hout
            rw [hstep] at hout
            exact ihres.1 out hout
          · intro out j u hout
            rw [hstep] at hout
            exact ihres.2 out j u hout
        | video m =>
          cases hf : files (InputUnit.video m) with
          | nil =>
            have hstep : extract_loop files frameOut (InputUnit.video m :: rest) avail
                (b + sets.length) (r + 1) sets =
                ExtractOutcome.noFilesErr
                  (sets ++ [(b + sets.length, InputUnit.video m, [])])
                  (b + sets.length) (InputUnit.video m) := by
              simp [extract_loop, ha, hf]
            constructor
            · intro out hout
              rw [hstep] at hout
              exact absurd hout (by simp)
            · intro out j u hout
              rw [hstep] at hout
              injection hout with e1 e2 e3
              subst e1
              subst e2
              subst e3
              obtain ⟨g1, g2, g3, g4⟩ :=
                trace_extend avail b sets (InputUnit.video m) [] h1 ha h2 h3 h4
              refine ⟨⟨g3, g4⟩, List.getLast?_concat _, hf, ⟨m, rfl⟩⟩
          | cons v vs =>
            have hstep : extract_loop files frameOut (InputUnit.video m :: rest) avail
                (b + sets.length) (r + 1) sets =
                extract_loop files frameOut rest (avail.erase (InputUnit.video m))
                  (b + sets.length + 1) r
                  (sets ++ [(b + sets.length, InputUnit.video m, frameOut v)]) := by
              simp [extract_loop, ha, hf]
            obtain ⟨g1, g2, g3, g4⟩ :=
              trace_extend avail b sets (InputUnit.video m) (frameOut v) h1 ha h2 h3 h4
            have ihres := ih (avail.erase (InputUnit.video m)) r
              (sets ++ [(b + sets.length, InputUnit.video m, frameOut v)])
              (b + sets.length + 1)
              (by simp only [List.length_append, List.length_cons, List.length_nil]
                  omega)
              g1 g2 g3 g4
            constructor
            · intro out hout
              rw [hstep] at hout
              exact ihres.1 out hout
            · intro out j u hout
              rw [hstep] at hout
              exact ihres.2 out j u hout
      · have hstep : extract_loop files frameOut (a :: rest) avail i (r + 1) sets =
            extract_loop files frameOut rest avail i (r + 1) sets := by
          simp [extract_loop, ha]
        have ihres := ih avail (r + 1) sets i hI h1 h2 h3 h4
        constructor
        · intro out hout
          rw [hstep] at hout
          exact ihres.1 out hout
        · intro out j u hout
          rw [hstep] at hout
          exact ihres.2 out j u hout

/-- C8: within one extraction run, each accepted choice is erased from the
available pool, so the units consumed by a run (completed normally or
halted by the no-files error) are pairwise distinct — a unit consumed
earlier is no longer offered — and the produced set indices are exactly
0, 1, 2, ... in iteration order: strictly increasing, never reused. -/
theorem extract_units_not_reused (files : InputUnit → List String)
    (frameOut : String → List String) (entries : List InputUnit) (k : Nat)
    (answers : List InputUnit) (hnd : entries.Nodup) :
    (∀ out, extract_run files frameOut entries k answers = ExtractOutcome.done out →
      (out.map (fun s => s.2.1)).Nodup ∧
      out.map Prod.fst = List.range out.length) ∧
    (∀ out j u,
      extract_run files frameOut entries k answers = ExtractOutcome.noFilesErr out j u →
      (out.map (fun s => s.2.1)).Nodup ∧
      out.map Prod.fst = List.range out.length) := by
  have h := extract_loop_trace files frameOut 0 answers entries k [] 0 rfl hnd
    (by intro s hs; cases hs) (by simp) rfl
  constructor
  · intro out hout
    obtain ⟨hn, hr⟩ := h.1 out hout
    exact ⟨hn, by rw [hr, List.range_eq_range']⟩
  · intro out j u hout
    obtain ⟨⟨hn, hr⟩, _, _, _⟩ := h.2 out j u hout
    exact ⟨hn, by rw [hr, List.range_eq_range']⟩

/-- Input-unit contents for the extraction examples: the images unit holds
one image, video0 holds one video file. -/
def filesC8 : InputUnit → List String := fun u =>
  match u with
  | InputUnit.images => ["a"]
  | InputUnit.video 0 => ["v"]
  | InputUnit.video (_ + 1) => []

/-- Frame-sampler output for the extraction examples. -/
def frameOutC8 : String → List String := fun _ => ["f0"]

/-- Witness for extract_units_not_reused: a completed two-set run consumes
distinct units and numbers its sets 0 and 1. -/
theorem extract_units_not_reused_witness :
    ([InputUnit.images, InputUnit.video 0] : List InputUnit).Nodup ∧
    ((([(0, InputUnit.images, ["a"]), (1, InputUnit.video 0, ["f0"])] :
        List (Nat × InputUnit × List String)).map (fun s => s.2.1)).Nodup ∧
     ([(0, InputUnit.images, ["a"]), (1, InputUnit.video 0, ["f0"])] :
        List (Nat × InputUnit × List String)).map Prod.fst =
       List.range ([(0, InputUnit.images, ["a"]), (1, InputUnit.video 0, ["f0"])] :
        List (Nat × InputUnit × List String)).length) :=
  ⟨by decide,
   (extract_units_not_reused filesC8 frameOutC8
      [InputUnit.images, InputUnit.video 0] 2
      [InputUnit.images, InputUnit.video 0] (by decide)).1
     [(0, InputUnit.images, ["a"]), (1, InputUnit.video 0, ["f0"])] (by decide)⟩

/-- C10: when extraction halts with the no-files error at iteration i on
unit u, the output area at that moment ends with the set directory of
iteration i, newly created and still empty, preceded by the outputs of
iterations 0..i-1 (set indices exactly 0..i): the error fires only after
output/set i was created, so it is not atomic with respect to the output
area. -/
theorem extract_noFiles_after_set_created (files : InputUnit → List String)
    (frameOut : String → List String) (entries : List InputUnit) (k : Nat)
    (answers : List InputUnit) (hnd : entries.Nodup) :
    ∀ out i u, extract_run files frameOut entries k answers =
        ExtractOutcome.noFilesErr out i u →
      out.getLast? = some (i, u, []) ∧
      (∃ m, u = InputUnit.video m) ∧
      files u = [] ∧
      out.map Prod.fst = List.range out.length ∧
      out.length = i + 1 := by
  intro out i u hout
  have h := (extract_loop_trace files frameOut 0 answers entries k [] 0 rfl hnd
    (by intro s hs; cases hs) (by simp) rfl).2 out i u hout
  obtain ⟨⟨hn, hr⟩, hlast, hf, hu⟩ := h
  have hrange : out.map Prod.fst = List.range out.length := by
    rw [hr, List.range_eq_range']
  refine ⟨hlast, hu, hf, hrange, ?_⟩
  have h1 : (out.map Prod.fst).getLast? = some i := by
    rw [List.getLast?_map, hlast]
    rfl
  rw [hrange] at h1
  cases out with
  | nil => simp at hlast
  | cons o os =>
    rw [List.length_cons, List.range_eq_range', List.range'_concat,
      List.getLast?_concat] at h1
    injection h1 with h2
    simp only [List.length_cons]
    omega

/-- Empty unit contents: every unit directory is empty. -/
def filesC10 : InputUnit → List String := fun _ => []

/-- Frame-sampler output for the failing extraction example. -/
def frameOutC10 : String → List String := fun _ => []

/-- Witness for extract_noFiles_after_set_created: choosing video0 whose
directory is empty halts the run and leaves the newly created empty set0. -/
theorem extract_noFiles_after_set_created_witness :
    ([InputUnit.video 0] : List InputUnit).Nodup ∧
    (([(0, InputUnit.video 0, [])] :
        List (Nat × InputUnit × List String)).getLast? =
       some (0, InputUnit.video 0, []) ∧
     (∃ m, InputUnit.video 0 = InputUnit.video m) ∧
     filesC10 (InputUnit.video 0) = [] ∧
     ([(0, InputUnit.video 0, [])] :
        List (Nat × InputUnit × List String)).map Prod.fst =
       List.range ([(0, InputUnit.video 0, [])] :
        List (Nat × InputUnit × List String)).length ∧
     ([(0, InputUnit.video 0, [])] :
        List (Nat × InputUnit × List String)).length = 0 + 1) :=
  ⟨by decide,
   extract_noFiles_after_set_created filesC10 frameOutC10 [InputUnit.video 0] 1
     [InputUnit.video 0] (by decide) [(0, InputUnit.video 0, [])] 0
     (InputUnit.video 0) (by decide)⟩
